import Mathlib

/-!
Shallow embedding of the WAV recorder's serialization core (`src/main.rs`).

A Rust `&mut [u8]` byte buffer is modelled as `Buf := List Nat` (each entry a
byte value); a method `fn serialize(&self, buffer: &mut [u8]) -> Result<(), ()>`
becomes a function `Buf → Option Unit × Buf`: the first component is `some ()`
for `Ok(())` and `none` for `Err(())`, and the second component is the buffer
contents after the call (Rust mutates in place, so the buffer state is also
returned on the error path).  Machine integers are `Nat` with explicit
`% 2 ^ 32` / `% 2 ^ 16` where Rust's fixed-width arithmetic wraps, and `i16`
sample values are `Int`, encoded little-endian in two's complement exactly as
`i16::to_le_bytes` does.
-/

abbrev Buf := List Nat

/-- Little-endian byte encoding: `leBytes k v` is the `k` low bytes of `v`,
least significant first (the meaning of `to_le_bytes` on a `k`-byte integer). -/
def leBytes : Nat → Nat → List Nat
  | 0, _ => []
  | k + 1, v => v % 256 :: leBytes k (v / 256)

/-- Little-endian read-back of a byte list (inverse direction of `leBytes`). -/
def bytesToNatLE : List Nat → Nat
  | [] => 0
  | d :: rest => d + 256 * bytesToNatLE rest

/-- Read the `k` bytes at offsets `off..off+k` of `b` as a little-endian number. -/
def readLE (b : Buf) (off k : Nat) : Nat :=
  bytesToNatLE ((b.drop off).take k)

/-- `buffer[lo..hi].copy_from_slice(src)`: overwrite the bytes at `lo..hi` with
`src`.  At every call site in the source `src.length = hi - lo` and
`hi ≤ b.length`, so the buffer length is preserved. -/
def copyFromSlice (b : Buf) (lo hi : Nat) (src : List Nat) : Buf :=
  b.take lo ++ src ++ b.drop hi

/-- The subslice `buffer[lo..hi]`. -/
def subSlice (b : Buf) (lo hi : Nat) : Buf :=
  (b.drop lo).take (hi - lo)

/-- Write a mutated subslice `s` back into `b` at offset `lo` (how a mutation
performed through `&mut buffer[lo..hi]` is reflected in the parent buffer). -/
def splice (b : Buf) (lo : Nat) (s : Buf) : Buf :=
  b.take lo ++ s ++ b.drop (lo + s.length)

/-- Run a serializer on the subslice `buffer[lo..hi]`; its mutations (also on
the error path) are visible in the parent buffer. -/
def runOn (lo hi : Nat) (m : Buf → Option Unit × Buf) (b : Buf) : Option Unit × Buf :=
  match m (subSlice b lo hi) with
  | (r, s) => (r, splice b lo s)

/-- Run a serializer on the tail subslice `buffer[lo..]`. -/
def runFrom (lo : Nat) (m : Buf → Option Unit × Buf) (b : Buf) : Option Unit × Buf :=
  match m (b.drop lo) with
  | (r, s) => (r, b.take lo ++ s)

/-- Rust's `?` operator on `Result<(), ()>` with the buffer threaded through:
an inner `Err` propagates (keeping the buffer state), `Ok` continues. -/
def bindStep (r : Option Unit × Buf) (k : Buf → Option Unit × Buf) : Option Unit × Buf :=
  match r with
  | (none, b) => (none, b)
  | (some _, b) => k b

/-- `impl BinarySerialize for u32 :: serialize` (`needed_size` is 4). -/
def serU32 (v : Nat) (b : Buf) : Option Unit × Buf :=
  if b.length < 4 then (none, b)
  else (some (), copyFromSlice b 0 4 (leBytes 4 v))

/-- `impl BinarySerialize for u16 :: serialize` (`needed_size` is 2). -/
def serU16 (v : Nat) (b : Buf) : Option Unit × Buf :=
  if b.length < 2 then (none, b)
  else (some (), copyFromSlice b 0 2 (leBytes 2 v))

/-- `i16::to_le_bytes`: two's-complement little-endian encoding of a signed
16-bit sample. -/
def i16le (s : Int) : List Nat :=
  leBytes 2 (s % 65536).toNat

/-- `impl BinarySerialize for i16 :: serialize` (`needed_size` is 2). -/
def serI16 (s : Int) (b : Buf) : Option Unit × Buf :=
  if b.length < 2 then (none, b)
  else (some (), copyFromSlice b 0 2 (i16le s))

/-- `enum WavFormat { PCM = 1 }`. -/
inductive WavFormat where
  | PCM
deriving DecidableEq

/-- The numeric discriminant (`*self as u16`). -/
def WavFormat.code : WavFormat → Nat
  | .PCM => 1

/-- `impl BinarySerialize for WavFormat :: serialize`: its own capacity check,
then `(*self as u16).serialize(buffer)`. -/
def WavFormat.serialize (fmt : WavFormat) (b : Buf) : Option Unit × Buf :=
  if b.length < 2 then (none, b)
  else serU16 fmt.code b

/-- `impl<T> BinarySerialize for Vec<T> :: needed_size`: zero when empty,
otherwise element count times the FIRST element's size.  The trait dictionary
is passed explicitly as the function `nsize`. -/
def vecNeededSize {α : Type} (nsize : α → Nat) : List α → Nat
  | [] => 0
  | x :: xs => (x :: xs).length * nsize x

/-- The write loop of `Vec<T>::serialize`: each element is serialized into the
subslice `buffer[off .. off + val.needed_size()]`, advancing `off`. -/
def vecSerializeLoop {α : Type} (nsize : α → Nat) (ser : α → Buf → Option Unit × Buf) :
    List α → Nat → Buf → Option Unit × Buf
  | [], _, b => (some (), b)
  | x :: xs, off, b =>
    bindStep (runOn off (off + nsize x) (ser x) b) fun b2 =>
      vecSerializeLoop nsize ser xs (off + nsize x) b2

/-- `impl<T> BinarySerialize for Vec<T> :: serialize`: capacity check against
`vecNeededSize`, then the element write loop starting at offset 0. -/
def vecSerialize {α : Type} (nsize : α → Nat) (ser : α → Buf → Option Unit × Buf)
    (v : List α) (b : Buf) : Option Unit × Buf :=
  if b.length < vecNeededSize nsize v then (none, b)
  else vecSerializeLoop nsize ser v 0 b

/-- `struct WavFile`; `samples: Vec<i16>` becomes `List Int`. -/
structure WavFile where
  format : WavFormat
  channels : Nat
  sample_rate : Nat
  bits_per_sample : Nat
  samples : List Int

/-- `WavFile::new`: PCM format, the given channels and rate, 16 bits per
sample, no samples. -/
def WavFile.new (channels sample_rate : Nat) : WavFile :=
  { format := .PCM, channels := channels, sample_rate := sample_rate,
    bits_per_sample := 16, samples := [] }

/-- `WavFile::push_sample`: `self.samples.push(sample)`. -/
def WavFile.push_sample (f : WavFile) (s : Int) : WavFile :=
  { f with samples := f.samples ++ [s] }

/-- `WavFile::needed_size`: `44 + self.samples.needed_size()`, where the
`Vec<i16>` instance uses the constant element size 2. -/
def WavFile.needed_size (f : WavFile) : Nat :=
  44 + vecNeededSize (fun _ : Int => 2) f.samples

/-- `(self.sample_rate * self.bits_per_sample as u32 * self.channels as u32) / 8`
with u32 arithmetic: each multiplication wraps modulo `2 ^ 32`. -/
def avgBytesPerSec (f : WavFile) : Nat :=
  ((f.sample_rate * f.bits_per_sample) % 4294967296 * f.channels) % 4294967296 / 8

/-- `(self.bits_per_sample * self.channels) / 8` with u16 arithmetic: the
multiplication wraps modulo `2 ^ 16`. -/
def blockAlign (f : WavFile) : Nat :=
  (f.bits_per_sample * f.channels) % 65536 / 8

/-- The literal bytes `b"RIFF"`. -/
def bRIFF : Buf := [82, 73, 70, 70]

/-- The literal bytes `b"WAVE"`. -/
def bWAVE : Buf := [87, 65, 86, 69]

/-- The literal bytes `b"fmt "`. -/
def bFMT : Buf := [102, 109, 116, 32]

/-- The literal bytes `b"data"`. -/
def bDATA : Buf := [100, 97, 116, 97]

/-- `impl BinarySerialize for WavFile :: serialize`, line by line: capacity
check, the header writes at their fixed offsets (each sub-serializer runs on
its subslice, with `?` propagation via `bindStep`), the `as u32` casts of the
two derived size fields made explicit as `% 4294967296`, and finally
`self.samples.serialize(&mut buffer[44..])`. -/
def WavFile.serialize (f : WavFile) (buffer : Buf) : Option Unit × Buf :=
  if buffer.length < f.needed_size then (none, buffer) else
  let b0 := copyFromSlice buffer 0 4 bRIFF
  let b1 := copyFromSlice b0 4 8 (leBytes 4 ((f.needed_size - 8) % 4294967296))
  let b2 := copyFromSlice b1 8 12 bWAVE
  let b3 := copyFromSlice b2 12 16 bFMT
  bindStep (runOn 16 20 (serU32 16) b3) fun b4 =>
  bindStep (runOn 20 22 (WavFormat.serialize f.format) b4) fun b5 =>
  bindStep (runOn 22 24 (serU16 f.channels) b5) fun b6 =>
  bindStep (runOn 24 28 (serU32 f.sample_rate) b6) fun b7 =>
  bindStep (runOn 28 32 (serU32 (avgBytesPerSec f)) b7) fun b8 =>
  bindStep (runOn 32 34 (serU16 (blockAlign f)) b8) fun b9 =>
  bindStep (runOn 34 36 (serU16 f.bits_per_sample) b9) fun b10 =>
  let b11 := copyFromSlice b10 36 40 bDATA
  let b12 := copyFromSlice b11 40 44
    (leBytes 4 (vecNeededSize (fun _ : Int => 2) f.samples % 4294967296))
  bindStep (runFrom 44 (vecSerialize (fun _ : Int => 2) serI16 f.samples) b12) fun b13 =>
  (some (), b13)

/-- The 44 header bytes that a successful `WavFile.serialize` deposits at
offsets `0..44` (stated and proved in `serialize_ok` below). -/
def wavHeader (f : WavFile) : Buf :=
  bRIFF ++ (leBytes 4 ((f.needed_size - 8) % 4294967296) ++ (bWAVE ++ (bFMT ++
    (leBytes 4 16 ++ (leBytes 2 f.format.code ++ (leBytes 2 f.channels ++
    (leBytes 4 f.sample_rate ++ (leBytes 4 (avgBytesPerSec f) ++
    (leBytes 2 (blockAlign f) ++ (leBytes 2 f.bits_per_sample ++
    (bDATA ++ leBytes 4 (vecNeededSize (fun _ : Int => 2) f.samples % 4294967296))))))))))))

/-- One audio-callback invocation (`src/main.rs` lines 38-43): under the lock,
push every delivered sample in order. -/
def callbackStep (f : WavFile) (data : List Int) : WavFile :=
  data.foldl WavFile.push_sample f

/-- A sequence of callback invocations applied in order. -/
def applyCallbacks (f : WavFile) (batches : List (List Int)) : WavFile :=
  batches.foldl callbackStep f

/-- The consumer's critical section (`src/main.rs` lines 55-58): under one lock
acquisition, query `needed_size`, allocate `vec![0u8; n]`, serialize into it.
Returns the sample count observed at the size query together with the encoded
buffer. -/
def consumeStep (f : WavFile) : Nat × Buf :=
  (f.samples.length, (f.serialize (List.replicate f.needed_size 0)).2)

theorem leBytes_length (k v : Nat) : (leBytes k v).length = k := by
  induction k generalizing v with
  | zero => rfl
  | succ k ih => simp [leBytes, ih]

theorem bytesToNatLE_leBytes (k v : Nat) : bytesToNatLE (leBytes k v) = v % 256 ^ k := by
  induction k generalizing v with
  | zero => simp [leBytes, bytesToNatLE, Nat.mod_one]
  | succ k ih =>
    rw [leBytes, bytesToNatLE, ih, pow_succ', Nat.mod_mul]

theorem needed_size_eq (f : WavFile) : f.needed_size = 44 + 2 * f.samples.length := by
  rw [WavFile.needed_size]
  cases hs : f.samples with
  | nil => simp [vecNeededSize]
  | cons x xs => simp [vecNeededSize]; ring

theorem copy_step0 (R src : Buf) (hi : Nat) :
    copyFromSlice R 0 hi src = src ++ R.drop hi := by
  simp [copyFromSlice]

theorem copy_step (L R src : Buf) (lo hi : Nat) (hL : L.length = lo)
    (hhi : lo + src.length = hi) :
    copyFromSlice (L ++ R) lo hi src = (L ++ src) ++ R.drop src.length := by
  subst hL; subst hhi
  rw [copyFromSlice, List.take_left, List.drop_append]

theorem dropDrop (l : Buf) (a b c : Nat) (h : a + b = c) :
    (l.drop a).drop b = l.drop c := by
  rw [List.drop_drop, h]

theorem serU32_take (v : Nat) (R : Buf) (h : 4 ≤ R.length) :
    serU32 v (R.take 4) = (some (), leBytes 4 v) := by
  rw [serU32, if_neg (by simp; omega)]
  simp [copyFromSlice, List.drop_take]

theorem serU16_take (v : Nat) (R : Buf) (h : 2 ≤ R.length) :
    serU16 v (R.take 2) = (some (), leBytes 2 v) := by
  rw [serU16, if_neg (by simp; omega)]
  simp [copyFromSlice, List.drop_take]

theorem fmt_take (fmt : WavFormat) (R : Buf) (h : 2 ≤ R.length) :
    WavFormat.serialize fmt (R.take 2) = (some (), leBytes 2 fmt.code) := by
  rw [WavFormat.serialize, if_neg (by simp; omega)]
  exact serU16_take fmt.code R h

theorem runOn_step (m : Buf → Option Unit × Buf) (L R out : Buf) (lo hi k : Nat)
    (hL : L.length = lo) (hk : lo + k = hi) (hout : out.length = k)
    (hm : m (R.take k) = (some (), out)) :
    runOn lo hi m (L ++ R) = (some (), (L ++ out) ++ R.drop k) := by
  subst hL; subst hk
  rw [runOn, subSlice, List.drop_left]
  have h2 : L.length + k - L.length = k := by omega
  rw [h2, hm]
  simp only [splice, List.take_left, hout, List.drop_append]

theorem runOn_serU32 (L R : Buf) (v lo hi : Nat) (hL : L.length = lo)
    (hk : lo + 4 = hi) (hR : 4 ≤ R.length) :
    runOn lo hi (serU32 v) (L ++ R) = (some (), (L ++ leBytes 4 v) ++ R.drop 4) :=
  runOn_step _ L R _ lo hi 4 hL hk (leBytes_length 4 v) (serU32_take v R hR)

theorem runOn_serU16 (L R : Buf) (v lo hi : Nat) (hL : L.length = lo)
    (hk : lo + 2 = hi) (hR : 2 ≤ R.length) :
    runOn lo hi (serU16 v) (L ++ R) = (some (), (L ++ leBytes 2 v) ++ R.drop 2) :=
  runOn_step _ L R _ lo hi 2 hL hk (leBytes_length 2 v) (serU16_take v R hR)

theorem runOn_fmt (L R : Buf) (fmt : WavFormat) (lo hi : Nat) (hL : L.length = lo)
    (hk : lo + 2 = hi) (hR : 2 ≤ R.length) :
    runOn lo hi (WavFormat.serialize fmt) (L ++ R) =
      (some (), (L ++ leBytes 2 fmt.code) ++ R.drop 2) :=
  runOn_step _ L R _ lo hi 2 hL hk (leBytes_length 2 fmt.code) (fmt_take fmt R hR)

theorem serI16_enc_length (s : Int) : (i16le s).length = 2 := by
  rw [i16le, leBytes_length]

theorem serI16_law (s : Int) (b : Buf) (hb : 2 ≤ b.length) :
    serI16 s b = (some (), i16le s ++ b.drop 2) := by
  rw [serI16, if_neg (by omega)]
  simp [copyFromSlice]

theorem vecSerializeLoop_ok {α : Type} (nsize : α → Nat) (ser : α → Buf → Option Unit × Buf)
    (enc : α → Buf) (k : Nat) (v : List α) (L R : Buf)
    (hlen : ∀ x ∈ v, (enc x).length = k)
    (hlaw : ∀ x ∈ v, ∀ b : Buf, k ≤ b.length → ser x b = (some (), enc x ++ b.drop k))
    (hsz : ∀ x ∈ v, nsize x = k)
    (hR : v.length * k ≤ R.length) :
    vecSerializeLoop nsize ser v L.length (L ++ R) =
      (some (), (L ++ v.flatMap enc) ++ R.drop (v.length * k)) := by
  induction v generalizing L R with
  | nil => simp [vecSerializeLoop]
  | cons x xs ih =>
    have hkR : k ≤ R.length := by
      have h1 : (x :: xs).length * k = xs.length * k + k := by simp; ring
      rw [h1] at hR
      omega
    have hx : nsize x = k := hsz x (by simp)
    rw [vecSerializeLoop, hx]
    rw [runOn_step (ser x) L R (enc x) L.length (L.length + k) k rfl rfl
      (hlen x (by simp))
      (by
        rw [hlaw x (by simp) (R.take k) (by simp [List.length_take]; omega)]
        simp [List.drop_take])]
    rw [bindStep]
    have hL2 : (L ++ enc x).length = L.length + k := by
      simp [hlen x (by simp)]
    rw [← hL2]
    rw [ih (L ++ enc x) (R.drop k)
      (fun y hy => hlen y (by simp [hy]))
      (fun y hy b hb => hlaw y (by simp [hy]) b hb)
      (fun y hy => hsz y (by simp [hy]))
      (by
        simp only [List.length_drop]
        have h1 : (x :: xs).length * k = xs.length * k + k := by simp; ring
        rw [h1] at hR
        omega)]
    rw [dropDrop R k (xs.length * k) ((x :: xs).length * k) (by simp; ring)]
    simp [List.append_assoc]

theorem vecSerialize_ok {α : Type} (nsize : α → Nat) (ser : α → Buf → Option Unit × Buf)
    (enc : α → Buf) (k : Nat) (v : List α) (b : Buf)
    (hlen : ∀ x ∈ v, (enc x).length = k)
    (hlaw : ∀ x ∈ v, ∀ c : Buf, k ≤ c.length → ser x c = (some (), enc x ++ c.drop k))
    (hsz : ∀ x ∈ v, nsize x = k)
    (hb : v.length * k ≤ b.length) :
    vecSerialize nsize ser v b = (some (), v.flatMap enc ++ b.drop (v.length * k)) := by
  have hns : vecNeededSize nsize v = v.length * k := by
    cases v with
    | nil => simp [vecNeededSize]
    | cons x xs => simp [vecNeededSize, hsz x (by simp)]
  rw [vecSerialize, if_neg (by rw [hns]; omega)]
  have := vecSerializeLoop_ok nsize ser enc k v [] b hlen hlaw hsz hb
  simpa using this

theorem runFrom_vecI16 (L R : Buf) (v : List Int) (hL : L.length = 44)
    (hR : v.length * 2 ≤ R.length) :
    runFrom 44 (vecSerialize (fun _ : Int => 2) serI16 v) (L ++ R) =
      (some (), L ++ (v.flatMap i16le ++ R.drop (v.length * 2))) := by
  rw [runFrom, List.drop_left' hL, List.take_left' hL]
  rw [vecSerialize_ok (fun _ : Int => 2) serI16 i16le 2 v R
    (fun x _ => serI16_enc_length x)
    (fun x _ c hc => serI16_law x c hc)
    (fun x _ => rfl) hR]

theorem serialize_ok (f : WavFile) (buffer : Buf) (h : f.needed_size ≤ buffer.length) :
    f.serialize buffer =
      (some (), wavHeader f ++ (f.samples.flatMap i16le ++ buffer.drop f.needed_size)) := by
  have hn := needed_size_eq f
  have hlen : 44 + 2 * f.samples.length ≤ buffer.length := by omega
  simp only [WavFile.serialize]
  rw [if_neg (not_lt.mpr h)]
  rw [copy_step0 buffer bRIFF 4]
  rw [copy_step bRIFF (buffer.drop 4) _ 4 8 rfl (by simp [leBytes_length])]
  rw [copy_step _ _ bWAVE 8 12 (by simp [bRIFF, leBytes_length]) (by simp [bWAVE])]
  rw [copy_step _ _ bFMT 12 16 (by simp [bRIFF, bWAVE, leBytes_length]) (by simp [bFMT])]
  rw [runOn_serU32 _ _ 16 16 20 (by simp [bRIFF, bWAVE, bFMT, leBytes_length]) rfl
    (by simp [List.length_drop, bRIFF, bWAVE, bFMT, bDATA, leBytes_length]; omega)]
  rw [bindStep]
  rw [runOn_fmt _ _ f.format 20 22
    (by simp [bRIFF, bWAVE, bFMT, leBytes_length]) rfl
    (by simp [List.length_drop, bRIFF, bWAVE, bFMT, bDATA, leBytes_length]; omega)]
  rw [bindStep]
  rw [runOn_serU16 _ _ f.channels 22 24
    (by simp [bRIFF, bWAVE, bFMT, leBytes_length]) rfl
    (by simp [List.length_drop, bRIFF, bWAVE, bFMT, bDATA, leBytes_length]; omega)]
  rw [bindStep]
  rw [runOn_serU32 _ _ f.sample_rate 24 28
    (by simp [bRIFF, bWAVE, bFMT, leBytes_length]) rfl
    (by simp [List.length_drop, bRIFF, bWAVE, bFMT, bDATA, leBytes_length]; omega)]
  rw [bindStep]
  rw [runOn_serU32 _ _ (avgBytesPerSec f) 28 32
    (by simp [bRIFF, bWAVE, bFMT, leBytes_length]) rfl
    (by simp [List.length_drop, bRIFF, bWAVE, bFMT, bDATA, leBytes_length]; omega)]
  rw [bindStep]
  rw [runOn_serU16 _ _ (blockAlign f) 32 34
    (by simp [bRIFF, bWAVE, bFMT, leBytes_length]) rfl
    (by simp [List.length_drop, bRIFF, bWAVE, bFMT, bDATA, leBytes_length]; omega)]
  rw [bindStep]
  rw [runOn_serU16 _ _ f.bits_per_sample 34 36
    (by simp [bRIFF, bWAVE, bFMT, leBytes_length]) rfl
    (by simp [List.length_drop, bRIFF, bWAVE, bFMT, bDATA, leBytes_length]; omega)]
  rw [bindStep]
  rw [copy_step _ _ bDATA 36 40
    (by simp [bRIFF, bWAVE, bFMT, leBytes_length]) (by simp [bDATA])]
  rw [copy_step _ _ _ 40 44
    (by simp [bRIFF, bWAVE, bFMT, bDATA, leBytes_length]) (by simp [leBytes_length])]
  rw [runFrom_vecI16 _ _ f.samples
    (by simp [bRIFF, bWAVE, bFMT, bDATA, leBytes_length])
    (by simp [List.length_drop, bRIFF, bWAVE, bFMT, bDATA, leBytes_length]; omega)]
  rw [bindStep]
  simp only [wavHeader, List.append_assoc, List.drop_drop]
  simp [bRIFF, bWAVE, bFMT, bDATA, leBytes_length, hn]
  ring_nf

theorem drop_chunk (c R : Buf) (off : Nat) (hoff : c.length ≤ off) :
    (c ++ R).drop off = R.drop (off - c.length) := by
  rw [show off = c.length + (off - c.length) from by omega, List.drop_append]
  congr 1
  omega

theorem readLE_chunk (c R : Buf) (off k : Nat) (hoff : c.length ≤ off) :
    readLE (c ++ R) off k = readLE R (off - c.length) k := by
  rw [readLE, readLE, drop_chunk c R off hoff]

theorem readLE_start (c R : Buf) (k : Nat) (hck : c.length = k) :
    readLE (c ++ R) 0 k = bytesToNatLE c := by
  rw [readLE, List.drop_zero, List.take_left' hck]

theorem wavHeader_length (f : WavFile) : (wavHeader f).length = 44 := by
  simp [wavHeader, bRIFF, bWAVE, bFMT, bDATA, leBytes_length]

theorem flatMap_i16le_length (v : List Int) : (v.flatMap i16le).length = 2 * v.length := by
  induction v with
  | nil => simp
  | cons x xs ih =>
    rw [List.flatMap_cons]
    simp [ih, serI16_enc_length]
    ring

theorem wav_take4 (f : WavFile) (t : Buf) : (wavHeader f ++ t).take 4 = bRIFF := by
  simp only [wavHeader, List.append_assoc]
  rw [List.take_left' (by simp [bRIFF])]

theorem wav_read4 (f : WavFile) (t : Buf) :
    readLE (wavHeader f ++ t) 4 4 = (f.needed_size - 8) % 4294967296 := by
  simp only [wavHeader, List.append_assoc]
  rw [readLE_chunk _ _ _ _ (by simp [bRIFF])]
  norm_num [bRIFF]
  rw [readLE_start _ _ _ (leBytes_length 4 _), bytesToNatLE_leBytes]
  norm_num

theorem wav_drop8 (f : WavFile) (t : Buf) : ((wavHeader f ++ t).drop 8).take 4 = bWAVE := by
  simp only [wavHeader, List.append_assoc]
  rw [drop_chunk _ _ _ (by simp [bRIFF])]
  rw [drop_chunk _ _ _ (by simp [bRIFF, leBytes_length])]
  norm_num [bRIFF, leBytes_length]
  rw [List.take_left' (by simp [bWAVE])]

theorem wav_drop12 (f : WavFile) (t : Buf) : ((wavHeader f ++ t).drop 12).take 4 = bFMT := by
  simp only [wavHeader, List.append_assoc]
  rw [drop_chunk _ _ _ (by simp [bRIFF])]
  rw [drop_chunk _ _ _ (by simp [bRIFF, leBytes_length])]
  rw [drop_chunk _ _ _ (by simp [bRIFF, bWAVE, leBytes_length])]
  norm_num [bRIFF, bWAVE, leBytes_length]
  rw [List.take_left' (by simp [bFMT])]

theorem bRIFF_length : bRIFF.length = 4 := rfl

theorem bWAVE_length : bWAVE.length = 4 := rfl

theorem bFMT_length : bFMT.length = 4 := rfl

theorem bDATA_length : bDATA.length = 4 := rfl

theorem wav_read16 (f : WavFile) (t : Buf) : readLE (wavHeader f ++ t) 16 4 = 16 := by
  simp [wavHeader, List.append_assoc, readLE_chunk, drop_chunk, readLE_start,
    bytesToNatLE_leBytes, bRIFF_length, bWAVE_length, bFMT_length, bDATA_length, leBytes_length]

theorem wav_read20 (f : WavFile) (t : Buf) :
    readLE (wavHeader f ++ t) 20 2 = f.format.code % 65536 := by
  simp [wavHeader, List.append_assoc, readLE_chunk, drop_chunk, readLE_start,
    bytesToNatLE_leBytes, bRIFF_length, bWAVE_length, bFMT_length, bDATA_length, leBytes_length]

theorem wav_read22 (f : WavFile) (t : Buf) :
    readLE (wavHeader f ++ t) 22 2 = f.channels % 65536 := by
  simp [wavHeader, List.append_assoc, readLE_chunk, drop_chunk, readLE_start,
    bytesToNatLE_leBytes, bRIFF_length, bWAVE_length, bFMT_length, bDATA_length, leBytes_length]

theorem wav_read24 (f : WavFile) (t : Buf) :
    readLE (wavHeader f ++ t) 24 4 = f.sample_rate % 4294967296 := by
  simp [wavHeader, List.append_assoc, readLE_chunk, drop_chunk, readLE_start,
    bytesToNatLE_leBytes, bRIFF_length, bWAVE_length, bFMT_length, bDATA_length, leBytes_length]

theorem wav_read28 (f : WavFile) (t : Buf) :
    readLE (wavHeader f ++ t) 28 4 = avgBytesPerSec f % 4294967296 := by
  simp [wavHeader, List.append_assoc, readLE_chunk, drop_chunk, readLE_start,
    bytesToNatLE_leBytes, bRIFF_length, bWAVE_length, bFMT_length, bDATA_length, leBytes_length]

theorem wav_read32 (f : WavFile) (t : Buf) :
    readLE (wavHeader f ++ t) 32 2 = blockAlign f % 65536 := by
  simp [wavHeader, List.append_assoc, readLE_chunk, drop_chunk, readLE_start,
    bytesToNatLE_leBytes, bRIFF_length, bWAVE_length, bFMT_length, bDATA_length, leBytes_length]

theorem wav_read34 (f : WavFile) (t : Buf) :
    readLE (wavHeader f ++ t) 34 2 = f.bits_per_sample % 65536 := by
  simp [wavHeader, List.append_assoc, readLE_chunk, drop_chunk, readLE_start,
    bytesToNatLE_leBytes, bRIFF_length, bWAVE_length, bFMT_length, bDATA_length, leBytes_length]

theorem wav_drop36 (f : WavFile) (t : Buf) : ((wavHeader f ++ t).drop 36).take 4 = bDATA := by
  simp [wavHeader, List.append_assoc, drop_chunk, List.take_left',
    bRIFF_length, bWAVE_length, bFMT_length, bDATA_length, leBytes_length]

theorem wav_read40 (f : WavFile) (t : Buf) :
    readLE (wavHeader f ++ t) 40 4 = vecNeededSize (fun _ : Int => 2) f.samples % 4294967296 := by
  simp [wavHeader, List.append_assoc, readLE_chunk, drop_chunk, readLE_start,
    bytesToNatLE_leBytes, bRIFF_length, bWAVE_length, bFMT_length, bDATA_length, leBytes_length]

theorem wav_drop44 (f : WavFile) (t : Buf) : (wavHeader f ++ t).drop 44 = t := by
  simp [wavHeader, List.append_assoc, drop_chunk,
    bRIFF_length, bWAVE_length, bFMT_length, bDATA_length, leBytes_length]

theorem serialize_err (f : WavFile) (b : Buf) (h : b.length < f.needed_size) :
    f.serialize b = (none, b) := by
  simp only [WavFile.serialize]
  rw [if_pos h]

theorem vecNeededSize_i16 (v : List Int) :
    vecNeededSize (fun _ : Int => 2) v = 2 * v.length := by
  cases v with
  | nil => simp [vecNeededSize]
  | cons x xs => simp [vecNeededSize]; ring

theorem format_code_eq_one (f : WavFile) : f.format.code = 1 := by
  cases hf : f.format
  rfl

theorem callbackStep_samples (g : WavFile) (l : List Int) :
    (callbackStep g l).samples = g.samples ++ l := by
  induction l generalizing g with
  | nil => simp [callbackStep]
  | cons x xs ih =>
    rw [callbackStep, List.foldl_cons]
    rw [show List.foldl WavFile.push_sample (g.push_sample x) xs = callbackStep (g.push_sample x) xs from rfl]
    rw [ih]
    simp [WavFile.push_sample]

/-- C1: for every `WavFile` whose sample sequence has length `n` (including
`n = 0`), `needed_size` returns exactly `44 + 2 * n`. -/
theorem c1_needed_size (f : WavFile) : f.needed_size = 44 + 2 * f.samples.length :=
  needed_size_eq f

/-- C3: `serialize` fails (with the sole capacity error) if and only if the
buffer's length is strictly less than `needed_size`; in particular a buffer of
`needed_size - 1` bytes fails and one of exactly `needed_size` bytes succeeds. -/
theorem c3_capacity_iff (f : WavFile) (b : Buf) :
    (f.serialize b).1 = none ↔ b.length < f.needed_size := by
  constructor
  · intro hnone
    by_contra hge
    push_neg at hge
    rw [serialize_ok f b hge] at hnone
    simp at hnone
  · intro hlt
    rw [serialize_err f b hlt]

/-- C4: the concrete scenario channels = 1, rate = 8000,
samples = [0, -1, 32767, -32768]: `needed_size` is 52, serializing into a
52-byte buffer succeeds, and the format fields and sample payload hold the
advertised bytes. -/
theorem c4_concrete :
    (WavFile.mk .PCM 1 8000 16 [0, -1, 32767, -32768]).needed_size = 52 ∧
    ((WavFile.mk .PCM 1 8000 16 [0, -1, 32767, -32768]).serialize
        (List.replicate 52 0)).1 = some () ∧
    (((WavFile.mk .PCM 1 8000 16 [0, -1, 32767, -32768]).serialize
        (List.replicate 52 0)).2.drop 22).take 2 = [1, 0] ∧
    (((WavFile.mk .PCM 1 8000 16 [0, -1, 32767, -32768]).serialize
        (List.replicate 52 0)).2.drop 24).take 4 = [64, 31, 0, 0] ∧
    (((WavFile.mk .PCM 1 8000 16 [0, -1, 32767, -32768]).serialize
        (List.replicate 52 0)).2.drop 28).take 4 = [128, 62, 0, 0] ∧
    (((WavFile.mk .PCM 1 8000 16 [0, -1, 32767, -32768]).serialize
        (List.replicate 52 0)).2.drop 32).take 2 = [2, 0] ∧
    (((WavFile.mk .PCM 1 8000 16 [0, -1, 32767, -32768]).serialize
        (List.replicate 52 0)).2.drop 40).take 4 = [8, 0, 0, 0] ∧
    ((WavFile.mk .PCM 1 8000 16 [0, -1, 32767, -32768]).serialize
        (List.replicate 52 0)).2.drop 44 = [0, 0, 255, 255, 255, 127, 0, 128] := by
  decide

/-- C7: `push_sample` appends the sample at the end (previous samples stay in
place) and raises `needed_size` by 2; pushing a batch of `k` samples between
two `needed_size` queries raises the answer by exactly `2 * k`. -/
theorem c7_push (f : WavFile) (s : Int) (l : List Int) :
    (f.push_sample s).samples = f.samples ++ [s] ∧
    (f.push_sample s).needed_size = f.needed_size + 2 ∧
    (callbackStep f l).needed_size = f.needed_size + 2 * l.length := by
  refine ⟨rfl, ?_, ?_⟩
  · rw [needed_size_eq, needed_size_eq]
    simp [WavFile.push_sample]
    ring
  · rw [needed_size_eq, needed_size_eq, callbackStep_samples]
    simp
    ring

/-- C9: in the interleaving model where each producer callback and the
consumer's size-query-then-serialize section are atomic (they each hold the
lock), any number of appended batches before the consumer's critical section
yields an encoded buffer whose sample payload length is exactly twice the
sample count observed at the size query of that same critical section. -/
theorem c9_lock_atomic (ch rate : Nat) (batches : List (List Int)) (i : Nat) :
    ((consumeStep (applyCallbacks (WavFile.new ch rate) (batches.take i))).2.drop 44).length =
      2 * (consumeStep (applyCallbacks (WavFile.new ch rate) (batches.take i))).1 := by
  have key : ∀ f : WavFile, ((consumeStep f).2).drop 44 = f.samples.flatMap i16le := by
    intro f
    simp only [consumeStep]
    have hcap : f.needed_size ≤ (List.replicate f.needed_size (0 : Nat)).length := by simp
    rw [serialize_ok f _ hcap]
    have hnil : (List.replicate f.needed_size (0 : Nat)).drop f.needed_size = [] := by simp
    rw [hnil, wav_drop44]
    simp
  rw [key, flatMap_i16le_length]
  rfl

/-- C10: a buffer strictly shorter than `needed_size` makes `serialize` return
the capacity error with the buffer contents untouched (the capacity check
precedes every write), and once the top-level check passes no inner serialize
call can fail. -/
theorem c10_error_no_write (f : WavFile) (b : Buf) (h : b.length < f.needed_size) :
    f.serialize b = (none, b) ∧
    ∀ b2 : Buf, f.needed_size ≤ b2.length → (f.serialize b2).1 = some () := by
  refine ⟨serialize_err f b h, fun b2 h2 => ?_⟩
  rw [serialize_ok f b2 h2]

theorem c10_error_no_write_witness :
    (List.replicate 43 (0 : Nat)).length < (WavFile.new 1 8000).needed_size ∧
    (WavFile.new 1 8000).serialize (List.replicate 43 0) = (none, List.replicate 43 0) ∧
    ((WavFile.new 1 8000).serialize (List.replicate 44 0)).1 = some () :=
  ⟨by decide,
   (c10_error_no_write (WavFile.new 1 8000) (List.replicate 43 0) (by decide)).1,
   (c10_error_no_write (WavFile.new 1 8000) (List.replicate 43 0) (by decide)).2
     (List.replicate 44 0) (by decide)⟩

/-- C2 counterexample: with `2 ^ 31` samples the `as u32` cast of the total
size wraps, so the u32 read back at offsets 4..8 plus 8 is 44 and no longer
equals `needed_size` (which is `44 + 2 ^ 32`), although the buffer is large
enough. -/
theorem c2_size_field_counterexample :
    (WavFile.mk .PCM 1 8000 16 (List.replicate 2147483648 0)).needed_size ≤
      (List.replicate (44 + 4294967296) (0 : Nat)).length ∧
    readLE ((WavFile.mk .PCM 1 8000 16 (List.replicate 2147483648 0)).serialize
        (List.replicate (44 + 4294967296) 0)).2 4 4 + 8 ≠
      (WavFile.mk .PCM 1 8000 16 (List.replicate 2147483648 0)).needed_size := by
  have hn : (WavFile.mk .PCM 1 8000 16 (List.replicate 2147483648 0)).needed_size =
      44 + 4294967296 := by
    rw [needed_size_eq]
    rw [show (WavFile.mk .PCM 1 8000 16 (List.replicate 2147483648 0)).samples =
      List.replicate 2147483648 0 from rfl]
    rw [List.length_replicate]
  have hlenb : (List.replicate (44 + 4294967296) (0 : Nat)).length = 44 + 4294967296 :=
    List.length_replicate _ _
  have hcap : (WavFile.mk .PCM 1 8000 16 (List.replicate 2147483648 0)).needed_size ≤
      (List.replicate (44 + 4294967296) (0 : Nat)).length := by
    rw [hn, hlenb]
  have h1 : readLE ((WavFile.mk .PCM 1 8000 16 (List.replicate 2147483648 0)).serialize
      (List.replicate (44 + 4294967296) 0)).2 4 4 = 36 := by
    rw [serialize_ok _ _ hcap, wav_read4, hn]
  constructor
  · rw [hn, hlenb]
  · rw [h1, hn]
    norm_num

/-- C2 (amended): for every `WavFile` with the fixed 16-bit depth and with
`36 + 2 * n < 2 ^ 32` (so that the two derived size fields fit in u32 — the
code truncates them with `as u32` otherwise), serializing into a buffer of at
least `needed_size` bytes succeeds and writes the fixed header and the sample
payload: the tags sit at offsets 0, 8, 12 and 36, the u32 at 16..20 is 16, the
u16 at 20..22 is 1, the u16 at 34..36 is 16, the u32 at 4..8 plus 8 is
`needed_size`, the u32 at 40..44 is `2 * n`, and offsets 44..44+2n hold each
sample little-endian in sequence order. -/
theorem c2_serialize_layout (f : WavFile) (buffer : Buf)
    (hcap : f.needed_size ≤ buffer.length)
    (hfit : 36 + 2 * f.samples.length < 4294967296)
    (hbits : f.bits_per_sample = 16) :
    (f.serialize buffer).1 = some () ∧
    ((f.serialize buffer).2).take 4 = bRIFF ∧
    readLE (f.serialize buffer).2 4 4 + 8 = f.needed_size ∧
    (((f.serialize buffer).2).drop 8).take 4 = bWAVE ∧
    (((f.serialize buffer).2).drop 12).take 4 = bFMT ∧
    readLE (f.serialize buffer).2 16 4 = 16 ∧
    readLE (f.serialize buffer).2 20 2 = 1 ∧
    readLE (f.serialize buffer).2 34 2 = 16 ∧
    (((f.serialize buffer).2).drop 36).take 4 = bDATA ∧
    readLE (f.serialize buffer).2 40 4 = 2 * f.samples.length ∧
    (((f.serialize buffer).2).drop 44).take (2 * f.samples.length) =
      f.samples.flatMap i16le := by
  have hn := needed_size_eq f
  have hs := serialize_ok f buffer hcap
  rw [hs]
  refine ⟨rfl, wav_take4 f _, ?_, wav_drop8 f _, wav_drop12 f _, wav_read16 f _, ?_, ?_,
    wav_drop36 f _, ?_, ?_⟩
  · rw [wav_read4]
    rw [Nat.mod_eq_of_lt (by omega)]
    omega
  · rw [wav_read20, format_code_eq_one]
  · rw [wav_read34, hbits]
  · rw [wav_read40, vecNeededSize_i16]
    exact Nat.mod_eq_of_lt (by omega)
  · rw [wav_drop44]
    exact List.take_left' (flatMap_i16le_length f.samples)

theorem c2_serialize_layout_witness :
    (WavFile.new 2 44100).needed_size ≤ (List.replicate 44 (0 : Nat)).length ∧
    ((WavFile.new 2 44100).serialize (List.replicate 44 0)).1 = some () ∧
    readLE ((WavFile.new 2 44100).serialize (List.replicate 44 0)).2 4 4 + 8 =
      (WavFile.new 2 44100).needed_size ∧
    readLE ((WavFile.new 2 44100).serialize (List.replicate 44 0)).2 40 4 =
      2 * (WavFile.new 2 44100).samples.length := by
  have h := c2_serialize_layout (WavFile.new 2 44100) (List.replicate 44 0)
    (by decide) (by decide) rfl
  exact ⟨by decide, h.1, h.2.2.1, h.2.2.2.2.2.2.2.2.2.1⟩

/-- C5: for every element type with an encoding discipline (each element's
serializer writes its encoding at offset 0 of a large-enough region and leaves
the rest), if all elements share the encoded size `k` then `needed_size` of the
sequence is the element count times `k` (0 for the empty sequence), and given a
buffer of at least that many bytes `serialize` succeeds and writes the
elements' encodings concatenated in order starting at offset 0. -/
theorem c5_vec (α : Type) (nsize : α → Nat) (ser : α → Buf → Option Unit × Buf)
    (enc : α → Buf) (k : Nat) (v : List α) (b : Buf)
    (hlen : ∀ x ∈ v, (enc x).length = k)
    (hlaw : ∀ x ∈ v, ∀ c : Buf, k ≤ c.length → ser x c = (some (), enc x ++ c.drop k))
    (hsz : ∀ x ∈ v, nsize x = k)
    (hb : v.length * k ≤ b.length) :
    vecNeededSize nsize v = v.length * k ∧
    vecSerialize nsize ser v b = (some (), v.flatMap enc ++ b.drop (v.length * k)) := by
  constructor
  · cases v with
    | nil => simp [vecNeededSize]
    | cons x xs => simp [vecNeededSize, hsz x (by simp)]
  · exact vecSerialize_ok nsize ser enc k v b hlen hlaw hsz hb

theorem c5_vec_witness :
    vecNeededSize (fun _ : Int => 2) [(1 : Int), -2] = [(1 : Int), -2].length * 2 ∧
    vecSerialize (fun _ : Int => 2) serI16 [(1 : Int), -2] (List.replicate 5 7) =
      (some (), [(1 : Int), -2].flatMap i16le ++
        (List.replicate 5 (7 : Nat)).drop ([(1 : Int), -2].length * 2)) :=
  c5_vec Int (fun _ : Int => 2) serI16 i16le 2 [(1 : Int), -2] (List.replicate 5 7)
    (fun x _ => serI16_enc_length x)
    (fun x _ c hc => serI16_law x c hc)
    (fun x _ => rfl)
    (by decide)

/-- C6 counterexample: at channels = 4096 (a valid u16) the u16 product
`bits_per_sample * channels` wraps modulo `2 ^ 16`, so the block-alignment
field is 0, not `16 * 4096 / 8 = 8192` as the untruncated formula says. -/
theorem c6_blockalign_counterexample :
    (WavFile.mk .PCM 4096 1 16 []).needed_size ≤ (List.replicate 44 (0 : Nat)).length ∧
    readLE ((WavFile.mk .PCM 4096 1 16 []).serialize (List.replicate 44 0)).2 32 2 ≠
      16 * 4096 / 8 := by
  decide

/-- C6 (amended): for every channel count and sample rate (in their u16/u32
ranges) and `bits_per_sample = 16`, serialize writes at 28..32 the u32
`rate * 16 * channels / 8` and at 32..34 the u16 `16 * channels / 8`, with each
multiplication wrapping modulo `2 ^ 32` (respectively `2 ^ 16`) before the
truncating division — which matches the untruncated formulas exactly when the
products fit. -/
theorem c6_rate_fields (f : WavFile) (buffer : Buf)
    (hcap : f.needed_size ≤ buffer.length)
    (_hch : f.channels < 65536) (_hrate : f.sample_rate < 4294967296)
    (hbits : f.bits_per_sample = 16) :
    readLE (f.serialize buffer).2 28 4 =
      (f.sample_rate * 16) % 4294967296 * f.channels % 4294967296 / 8 ∧
    readLE (f.serialize buffer).2 32 2 = (16 * f.channels) % 65536 / 8 := by
  have hs := serialize_ok f buffer hcap
  constructor
  · rw [hs, wav_read28]
    have hlt : avgBytesPerSec f % 4294967296 = avgBytesPerSec f :=
      Nat.mod_eq_of_lt (lt_of_le_of_lt (Nat.div_le_self _ _) (Nat.mod_lt _ (by norm_num)))
    rw [hlt, avgBytesPerSec, hbits]
  · rw [hs, wav_read32]
    have hlt : blockAlign f % 65536 = blockAlign f :=
      Nat.mod_eq_of_lt (lt_of_le_of_lt (Nat.div_le_self _ _) (Nat.mod_lt _ (by norm_num)))
    rw [hlt, blockAlign, hbits]

theorem c6_rate_fields_witness :
    readLE ((WavFile.new 1 8000).serialize (List.replicate 44 0)).2 28 4 =
      ((WavFile.new 1 8000).sample_rate * 16) % 4294967296 * (WavFile.new 1 8000).channels %
        4294967296 / 8 ∧
    readLE ((WavFile.new 1 8000).serialize (List.replicate 44 0)).2 32 2 =
      (16 * (WavFile.new 1 8000).channels) % 65536 / 8 :=
  c6_rate_fields (WavFile.new 1 8000) (List.replicate 44 0)
    (by decide) (by decide) (by decide) rfl

/-- C8 counterexample: two equal-length regions (45 bytes) on which serialize
succeeds but whose bytes beyond `needed_size` differed beforehand stay
different afterwards — the encoder never touches the tail. -/
theorem c8_tail_counterexample :
    ((WavFile.new 1 8000).serialize (List.replicate 45 0)).1 = some () ∧
    ((WavFile.new 1 8000).serialize (List.replicate 44 0 ++ [1])).1 = some () ∧
    (List.replicate 45 (0 : Nat)).length = (List.replicate 44 (0 : Nat) ++ [1]).length ∧
    ((WavFile.new 1 8000).serialize (List.replicate 45 0)).2 ≠
      ((WavFile.new 1 8000).serialize (List.replicate 44 0 ++ [1])).2 := by
  decide

/-- C8 (amended): encoding the same `WavFile` state into two equally-sized
regions on which serialize succeeds yields byte-identical output on the first
`needed_size` bytes (the whole region when it is exactly `needed_size` long);
bytes beyond `needed_size` keep their prior, possibly different, contents. -/
theorem c8_deterministic (f : WavFile) (b1 b2 : Buf)
    (_hlen : b1.length = b2.length)
    (h1 : (f.serialize b1).1 = some ()) (h2 : (f.serialize b2).1 = some ()) :
    ((f.serialize b1).2).take f.needed_size = ((f.serialize b2).2).take f.needed_size := by
  have hn := needed_size_eq f
  have hge1 : f.needed_size ≤ b1.length := by
    by_contra hlt
    push_neg at hlt
    rw [serialize_err f b1 hlt] at h1
    simp at h1
  have hge2 : f.needed_size ≤ b2.length := by
    by_contra hlt
    push_neg at hlt
    rw [serialize_err f b2 hlt] at h2
    simp at h2
  rw [serialize_ok f b1 hge1, serialize_ok f b2 hge2]
  rw [← List.append_assoc, ← List.append_assoc]
  rw [List.take_left' (by
      simp only [List.length_append, wavHeader_length, flatMap_i16le_length]; omega),
    List.take_left' (by
      simp only [List.length_append, wavHeader_length, flatMap_i16le_length]; omega)]

theorem c8_deterministic_witness :
    ((WavFile.new 1 8000).serialize (List.replicate 44 0)).2.take
        (WavFile.new 1 8000).needed_size =
      ((WavFile.new 1 8000).serialize (List.replicate 43 0 ++ [9])).2.take
        (WavFile.new 1 8000).needed_size :=
  c8_deterministic (WavFile.new 1 8000) (List.replicate 44 0) (List.replicate 43 0 ++ [9])
    (by decide) (by decide) (by decide)
